import Mathlib

/-!
# URL shortener: key derivation and request handlers

A shallow embedding of `src/go_http/main.go` and `src/go_gin/main.go`.
Both front-ends share `GenerateShortKey`, `Insert`, `Find` and `findShortUrl`
verbatim; the two `/shorten` handlers and the two redirect handlers differ
only in the transport calls they make.

Go strings are modelled by Lean strings, which covers every long URL that is
valid UTF-8.  Every string the key derivation slices or measures consists of
ASCII characters only, so Go's byte length and byte slicing coincide with the
character operations used here.

A redirect is recorded as the `Location` header that `http.Redirect` sets, which
is not always the target handed to it.

The store is reached through a gocql session; neither the client nor the schema
of table `urls` is part of the sources.  The session is modelled as the ordered
rows of the table together with a script of the store failures to come and a
record of the statements sent.
-/

namespace UrlShortener

/-! ## The library hash: `crypto/md5`, `encoding/hex`, `big.Int.SetString`

The standard-library functions `GenerateShortKey` calls before its loop, written
out after RFC 1321 and the package documentation, so that the key of a concrete
long URL can be computed.  `md5_test_vectors` checks them on the test suite of
the RFC. -/

/-- Per-round left-rotation amounts of MD5 (RFC 1321). -/
def md5Shifts : List Nat :=
  [7, 12, 17, 22, 7, 12, 17, 22, 7, 12, 17, 22, 7, 12, 17, 22,
   5, 9, 14, 20, 5, 9, 14, 20, 5, 9, 14, 20, 5, 9, 14, 20,
   4, 11, 16, 23, 4, 11, 16, 23, 4, 11, 16, 23, 4, 11, 16, 23,
   6, 10, 15, 21, 6, 10, 15, 21, 6, 10, 15, 21, 6, 10, 15, 21]

/-- The sine table of MD5: entry `i` is `floor (2^32 * |sin (i + 1)|)`. -/
def md5Table : List Nat :=
  [0xd76aa478, 0xe8c7b756, 0x242070db, 0xc1bdceee, 0xf57c0faf, 0x4787c62a, 0xa8304613, 0xfd469501,
   0x698098d8, 0x8b44f7af, 0xffff5bb1, 0x895cd7be, 0x6b901122, 0xfd987193, 0xa679438e, 0x49b40821,
   0xf61e2562, 0xc040b340, 0x265e5a51, 0xe9b6c7aa, 0xd62f105d, 0x02441453, 0xd8a1e681, 0xe7d3fbc8,
   0x21e1cde6, 0xc33707d6, 0xf4d50d87, 0x455a14ed, 0xa9e3e905, 0xfcefa3f8, 0x676f02d9, 0x8d2a4c8a,
   0xfffa3942, 0x8771f681, 0x6d9d6122, 0xfde5380c, 0xa4beea44, 0x4bdecfa9, 0xf6bb4b60, 0xbebfbc70,
   0x289b7ec6, 0xeaa127fa, 0xd4ef3085, 0x04881d05, 0xd9d4d039, 0xe6db99e5, 0x1fa27cf8, 0xc4ac5665,
   0xf4292244, 0x432aff97, 0xab9423a7, 0xfc93a039, 0x655b59c3, 0x8f0ccc92, 0xffeff47d, 0x85845dd1,
   0x6fa87e4f, 0xfe2ce6e0, 0xa3014314, 0x4e0811a1, 0xf7537e82, 0xbd3af235, 0x2ad7d2bb, 0xeb86d391]

/-- Addition of 32-bit words. -/
def add32 (a b : Nat) : Nat := (a + b) % 2 ^ 32

/-- Bitwise complement of a 32-bit word. -/
def not32 (a : Nat) : Nat := a ^^^ 0xffffffff

/-- Left rotation of a 32-bit word by `c` bits, `0 < c < 32`. -/
def rotl32 (x c : Nat) : Nat := ((x <<< c) % 2 ^ 32) ||| (x >>> (32 - c))

/-- The four chaining words of MD5. -/
structure Md5State where
  a : Nat
  b : Nat
  c : Nat
  d : Nat
deriving DecidableEq, Repr

/-- Initial chaining value of MD5. -/
def md5Init : Md5State := ⟨0x67452301, 0xefcdab89, 0x98badcfe, 0x10325476⟩

/-- Message padding of MD5: a `0x80` byte, zero bytes up to 56 modulo 64, and
the bit length of the message as a little-endian 64-bit integer. -/
def md5Pad (msg : List Nat) : List Nat :=
  let bits := (8 * msg.length) % 2 ^ 64
  msg ++ [0x80] ++ List.replicate ((119 - msg.length % 64) % 64) 0
    ++ (List.range 8).map (fun i => (bits >>> (8 * i)) % 256)

/-- Little-endian 32-bit word `j` of a 64-byte block. -/
def md5Word (block : List Nat) (j : Nat) : Nat :=
  block.getD (4 * j) 0 + block.getD (4 * j + 1) 0 * 2 ^ 8
    + block.getD (4 * j + 2) 0 * 2 ^ 16 + block.getD (4 * j + 3) 0 * 2 ^ 24

/-- One of the 64 steps of the MD5 compression function. -/
def md5Step (block : List Nat) (s : Md5State) (i : Nat) : Md5State :=
  let fg : Nat × Nat :=
    if i < 16 then ((s.b &&& s.c) ||| (not32 s.b &&& s.d), i)
    else if i < 32 then ((s.d &&& s.b) ||| (not32 s.d &&& s.c), (5 * i + 1) % 16)
    else if i < 48 then (s.b ^^^ s.c ^^^ s.d, (3 * i + 5) % 16)
    else (s.c ^^^ (s.b ||| not32 s.d), (7 * i) % 16)
  let f := add32 (add32 (add32 fg.1 s.a) (md5Table.getD i 0)) (md5Word block fg.2)
  ⟨s.d, add32 s.b (rotl32 f (md5Shifts.getD i 0)), s.b, s.c⟩

/-- The MD5 compression function: 64 steps, then the feed-forward addition. -/
def md5Block (s : Md5State) (block : List Nat) : Md5State :=
  let t := (List.range 64).foldl (md5Step block) s
  ⟨add32 s.a t.a, add32 s.b t.b, add32 s.c t.c, add32 s.d t.d⟩

/-- The four bytes of a 32-bit word, least significant first. -/
def le32Bytes (w : Nat) : List Nat :=
  [w % 256, (w >>> 8) % 256, (w >>> 16) % 256, (w >>> 24) % 256]

/-- `md5.Sum`: the 16-byte MD5 digest of a byte sequence. -/
def md5Sum (msg : List Nat) : List Nat :=
  let padded := md5Pad msg
  let s := (List.range (padded.length / 64)).foldl
    (fun st k => md5Block st ((padded.drop (64 * k)).take 64)) md5Init
  le32Bytes s.a ++ le32Bytes s.b ++ le32Bytes s.c ++ le32Bytes s.d

/-- The digit alphabet of `encoding/hex`. -/
def hextable : String := "0123456789abcdef"

/-- `hex.EncodeToString`: two lower-case hexadecimal characters per byte. -/
def hexEncodeToString (bytes : List Nat) : String :=
  ⟨bytes.flatMap (fun b => [hextable.data.getD (b / 16) '0', hextable.data.getD (b % 16) '0'])⟩

/-- `big.Int.SetString(s, 16)` on a string of hexadecimal digits: its value,
most significant digit first. -/
def setStringBase16 (s : String) : Nat :=
  s.data.foldl (fun acc c => acc * 16 + hextable.data.indexOf c.toLower) 0

/-- `[]byte(s)`: the bytes of a string. -/
def stringBytes (s : String) : List Nat := s.toUTF8.data.toList.map UInt8.toNat

/-- Lines 70-74 of `GenerateShortKey`: the integer `hashInt` held when the
loop is entered, read from the first 16 hexadecimal characters of the MD5
digest of the long URL. -/
def hashIntOf (longURL : String) : Nat :=
  let hash := md5Sum (stringBytes longURL)
  let hashStr := hexEncodeToString hash
  let partialHash := hashStr.take 16
  setStringBase16 partialHash

/-! ## `GenerateShortKey` -/

/-- The digit alphabet of the short keys (line 17). -/
def base62Chars : String := "ABCDEFGHIJKLMNOPQRSTUVWXYZabcdefghijklmnopqrstuvwxyz0123456789"

/-- The variables the loop of `GenerateShortKey` updates. -/
structure LoopState where
  hashInt : Nat
  shortKey : String
deriving DecidableEq, Repr

/-- Lines 81-83, one iteration: `hashInt.DivMod(hashInt, base, rem)` and
`shortKey = string(base62Chars[rem.Int64()]) + shortKey`. -/
def loopBody (s : LoopState) : LoopState :=
  let rem := s.hashInt % 62
  { hashInt := s.hashInt / 62
    shortKey := String.singleton
      (base62Chars.data.get ⟨rem, show s.hashInt % 62 < 62 from Nat.mod_lt _ (by decide)⟩)
      ++ s.shortKey }

/-- Lines 80-84: `for hashInt.Cmp(zero) > 0 { ... }`, run for at most `fuel`
iterations.  The state returned still has `hashInt > 0` exactly when the fuel
ran out before the loop condition failed. -/
def base62Loop : Nat → LoopState → LoopState
  | 0, s => s
  | fuel + 1, s => if s.hashInt > 0 then base62Loop fuel (loopBody s) else s

/-- The accumulator `shortKey` when the loop is left, for the value `hashInt`
held at its entry.  Every iteration on a positive `hashInt` makes it smaller, so
the `hashInt` iterations granted here are never used up: the loop is left with
`hashInt = 0`. -/
def encodeBase62 (hashInt : Nat) : String :=
  (base62Loop hashInt { hashInt := hashInt, shortKey := "" }).shortKey

/-- `fmt.Sprintf("%0*d", width, v)` for `v ≥ 0`: the decimal digits of `v`,
padded on the left with `0` characters up to `width`. -/
def sprintfZeroPad (width v : Nat) : String :=
  let digits := Nat.repr v
  ⟨List.replicate (width - digits.length) '0'⟩ ++ digits

/-- Lines 86-90: the length post-processing of the key. -/
def normalizeLength (shortKey : String) : String :=
  if shortKey.length > 8 then
    shortKey.take 8
  else if shortKey.length < 6 then
    shortKey ++ sprintfZeroPad (6 - shortKey.length) 0
  else
    shortKey

/-- Lines 76-92 of `GenerateShortKey`, as a function of the integer read from
the hash prefix. -/
def shortKeyOfHash (hashInt : Nat) : String :=
  normalizeLength (encodeBase62 hashInt)

/-- `Service.GenerateShortKey` (go_http lines 69-93, go_gin lines 45-69): the
key and the error, which is always `nil`. -/
def GenerateShortKey (longURL : String) : String × Option String :=
  (shortKeyOfHash (hashIntOf longURL), none)

/-! ## The store -/

/-- A row of table `urls`. -/
structure UrlMapping where
  short_url : String
  long_url : String
deriving DecidableEq, Repr

/-- An error value returned by a query of the gocql session: the sentinel
`gocql.ErrNotFound`, or any other failure (unreachable, timed out, ...). -/
inductive QueryError where
  | ErrNotFound
  | failure (msg : String)
deriving DecidableEq, Repr

/-- `err.Error()`. -/
def QueryError.message : QueryError → String
  | .ErrNotFound => "not found"
  | .failure msg => msg

/-- The three statements the service sends to the store. -/
inductive Statement where
  /-- `INSERT INTO urls (short_url, long_url) VALUES (?, ?)` -/
  | insertUrl (shortURL longURL : String)
  /-- `SELECT short_url FROM urls WHERE long_url = ? LIMIT 1` -/
  | selectShortUrl (longURL : String)
  /-- `SELECT long_url FROM urls WHERE short_url = ? LIMIT 1` -/
  | selectLongUrl (shortURL : String)
deriving DecidableEq, Repr

/-- Modelled from the spec: the store behind `Service.Session`, whose schema and
client are not part of the sources.  `urls` holds the rows of table `urls` in
the order in which a `SELECT` meets them; there is no uniqueness constraint on
either column.  `faults` scripts the store failures of the coming statements,
one entry per statement: `some msg` makes that statement fail with an error
other than `ErrNotFound`, `none` (or an exhausted script) lets it be served.
`executed` records every statement sent, oldest first. -/
structure Session where
  urls : List UrlMapping
  faults : List (Option String)
  executed : List Statement
deriving DecidableEq, Repr

/-- The failure the fault script holds for the next statement, if any. -/
def Session.nextFault (s : Session) : Option String :=
  match s.faults with
  | some msg :: _ => some msg
  | _ => none

/-- The session after one more statement has been sent: the statement is
recorded and its entry of the fault script is used up. -/
def Session.sent (s : Session) (q : Statement) : Session :=
  { s with faults := s.faults.tail, executed := s.executed ++ [q] }

/-- Modelled from the spec: `Session.Query(INSERT ...).Exec()`.  A served
insert adds one row to the table, a failed one leaves the rows as they are. -/
def Session.execInsert (s : Session) (shortURL longURL : String) :
    Option QueryError × Session :=
  let s1 := s.sent (.insertUrl shortURL longURL)
  match s.nextFault with
  | some msg => (some (.failure msg), s1)
  | none => (none, { s1 with urls := s.urls ++ [⟨shortURL, longURL⟩] })

/-- Modelled from the spec: `Session.Query(SELECT short_url ... WHERE long_url = ?
LIMIT 1).Scan(&shortUrl)`: the scanned variable and the error.  Only the first
matching row is considered; no matching row is `ErrNotFound`. -/
def Session.scanShortUrl (s : Session) (longURL : String) :
    String × Option QueryError × Session :=
  let s1 := s.sent (.selectShortUrl longURL)
  match s.nextFault with
  | some msg => ("", some (.failure msg), s1)
  | none =>
    match s.urls.find? (fun row => row.long_url = longURL) with
    | some row => (row.short_url, none, s1)
    | none => ("", some .ErrNotFound, s1)

/-- `Service.Insert` (go_http lines 95-102, go_gin lines 71-78): the error
returned, `none` for `nil`. -/
def Insert (s : Session) (shortURL longURL : String) : Option String × Session :=
  let (err, s1) := s.execInsert shortURL longURL
  match err with
  | some e => (some ("failed to insert URL into DB: " ++ e.message), s1)
  | none => (none, s1)

/-- `Service.Find` (go_http lines 104-118, go_gin lines 80-94): the triple
`(shortUrl, found, err)`. -/
def Find (s : Session) (longURL : String) : (String × Bool × Option String) × Session :=
  let (shortUrl, err, s1) := s.scanShortUrl longURL
  if err = some QueryError.ErrNotFound then
    (("", false, none), s1)
  else
    match err with
    | some e => (("", false, some ("failed to find URL: " ++ e.message)), s1)
    | none => ((shortUrl, true, none), s1)

/-- What a handler reads of a request: the method, the path, the query
parameters in their order of appearance, and the path parameters bound by the
gin router. -/
structure Request where
  method : String
  path : String
  query : List (String × String)
  params : List (String × String)
deriving DecidableEq, Repr

/-- What a handler hands to the transport as the body of its response. -/
inductive Body where
  /-- a plain-text message (`http.Error`) -/
  | text (msg : String)
  /-- a JSON object with string fields (`json.Marshal`, `c.JSON`) -/
  | json (fields : List (String × String))
  /-- a redirect: the value of the `Location` header set by `http.Redirect` -/
  | location (url : String)
deriving DecidableEq, Repr

/-- The status code and body a handler responds with. -/
structure Response where
  status : Nat
  body : Body
deriving DecidableEq, Repr

def StatusOK : Nat := 200
def StatusBadRequest : Nat := 400
def StatusMethodNotAllowed : Nat := 405
def StatusInternalServerError : Nat := 500

/-! ## The library redirect: `net/url`, `path`, `http.Redirect`

`http.Redirect`, which both redirect handlers end in (gin's `c.Redirect` renders
through it), does not send its target as it is: a target that `url.Parse`
accepts with empty scheme and empty host is made an absolute path against the
path of the request and cleaned, and every non-ASCII byte is percent-escaped.
The functions below follow `net/http`, `net/url` and `path` as far as the
`Location` header depends on them.  They work on characters; the delimiters
they look for are ASCII, and the bytes of a non-ASCII character are all
non-ASCII, so this agrees with Go's byte-wise code on every valid UTF-8 string.
-/

/-- `strings.Cut(s, sep)` for a one-byte separator: the text before and after the
first `sep`, or `s` and the empty string when there is none. -/
def cutAt (sep : Char) (s : List Char) : List Char × List Char :=
  (s.takeWhile (fun c => c != sep), (s.dropWhile (fun c => c != sep)).drop 1)

/-- `stringContainsCTLByte` of `net/url`. -/
def stringContainsCTLByte (s : List Char) : Bool :=
  s.any (fun c => c.toNat < 0x20 || c.toNat == 0x7f)

/-- The loop of `getScheme`, at index `i` with `rest` still to read: `none` is
the error "missing protocol scheme", otherwise the scheme and what follows it. -/
def getSchemeLoop (rawURL : List Char) : List Char → Nat → Option (List Char × List Char)
  | [], _ => some ([], rawURL)
  | c :: rest, i =>
    if c.isAlpha then
      getSchemeLoop rawURL rest (i + 1)
    else if c.isDigit || c == '+' || c == '-' || c == '.' then
      if i = 0 then some ([], rawURL) else getSchemeLoop rawURL rest (i + 1)
    else if c == ':' then
      if i = 0 then none else some (rawURL.take i, rawURL.drop (i + 1))
    else
      some ([], rawURL)

/-- `getScheme` of `net/url`. -/
def getScheme (rawURL : List Char) : Option (List Char × List Char) :=
  getSchemeLoop rawURL rawURL 0

/-- `ishex` of `net/url`. -/
def ishex (c : Char) : Bool :=
  c.isDigit || (97 ≤ c.toNat && c.toNat ≤ 102) || (65 ≤ c.toNat && c.toNat ≤ 70)

/-- Whether `unescape(s, mode)` returns no error, for the modes `encodePath`,
`encodeFragment` and `encodeUserPassword`: every `%` is followed by two
hexadecimal digits. -/
def unescapeOK : List Char → Bool
  | [] => true
  | '%' :: a :: b :: rest => ishex a && ishex b && unescapeOK rest
  | '%' :: _ => false
  | _ :: rest => unescapeOK rest

/-- `validUserinfo` of `net/url`. -/
def validUserinfo (s : List Char) : Bool :=
  s.all (fun r => r.isAlpha || r.isDigit ||
    ['-', '.', '_', ':', '~', '!', '$', '&', Char.ofNat 39, '(', ')', '*', '+', ',', ';', '=',
      '%', '@'].contains r)

/-- Whether `parseAuthority(authority)` returns no error and an empty host.  The
host is what follows the last `@`, or the whole authority without one; a
non-empty host is either refused or returned non-empty, and an empty one is
accepted, after which the user information is checked. -/
def authorityWithoutHost (authority : List Char) : Bool :=
  match authority.reverse with
  | [] => true
  | '@' :: reversedUserinfo =>
    let userinfo := reversedUserinfo.reverse
    validUserinfo userinfo &&
      (if userinfo.contains ':' then
        unescapeOK (cutAt ':' userinfo).1 && unescapeOK (cutAt ':' userinfo).2
      else
        unescapeOK userinfo)
  | _ => false

/-- Whether `url.Parse(rawURL)` returns no error and a URL whose `Scheme` and
`Host` are both empty, which is the test `http.Redirect` makes. -/
def parsesAsRelative (rawURL : List Char) : Bool :=
  let u := (cutAt '#' rawURL).1
  let frag := (cutAt '#' rawURL).2
  if stringContainsCTLByte u then
    false
  else if u = ['*'] then
    unescapeOK frag
  else
    match getScheme u with
    | none => false
    | some (scheme, afterScheme) =>
      if scheme ≠ [] then
        false
      else
        let rest := (cutAt '?' afterScheme).1
        if rest.head? ≠ some '/' ∧ (cutAt '/' rest).1.contains ':' then
          false
        else if rest.take 2 = ['/', '/'] ∧ rest.take 3 ≠ ['/', '/', '/'] then
          authorityWithoutHost ((rest.drop 2).takeWhile (fun c => c != '/')) &&
            unescapeOK ((rest.drop 2).dropWhile (fun c => c != '/')) && unescapeOK frag
        else
          unescapeOK rest && unescapeOK frag

/-- The variables of the loop of `path.Clean`: the read index, the output
written so far, and the index below which `..` may not back up. -/
structure CleanState where
  r : Nat
  out : List Char
  dotdot : Nat
deriving DecidableEq, Repr

/-- The backing up of `path.Clean` on a `..` element, from write index `w`:
`for out.w > dotdot && out.index(out.w) != '/' { out.w-- }`. -/
def cleanBackUp (out : List Char) (dotdot : Nat) : Nat → Nat
  | 0 => 0
  | w + 1 =>
    if w + 1 > dotdot ∧ out.getD (w + 1) 'x' ≠ '/' then cleanBackUp out dotdot w else w + 1

/-- One iteration of the loop of `path.Clean`. -/
def cleanStep (path : List Char) (rooted : Bool) (st : CleanState) : CleanState :=
  let n := path.length
  let r := st.r
  if path.getD r 'x' = '/' then
    { st with r := r + 1 }
  else if path.getD r 'x' = '.' ∧ (r + 1 = n ∨ path.getD (r + 1) 'x' = '/') then
    { st with r := r + 1 }
  else if path.getD r 'x' = '.' ∧ path.getD (r + 1) 'x' = '.' ∧
      (r + 2 = n ∨ path.getD (r + 2) 'x' = '/') then
    if st.out.length > st.dotdot then
      { st with r := r + 2
                out := st.out.take (cleanBackUp st.out st.dotdot (st.out.length - 1)) }
    else if !rooted then
      let out := (if st.out.length > 0 then st.out ++ ['/'] else st.out) ++ ['.', '.']
      { r := r + 2, out := out, dotdot := out.length }
    else
      { st with r := r + 2 }
  else
    let out := if (rooted && st.out.length != 1) || (!rooted && st.out.length != 0)
      then st.out ++ ['/'] else st.out
    let element := (path.drop r).takeWhile (fun c => c != '/')
    { st with r := r + element.length, out := out ++ element }

/-- The loop `for r < n` of `path.Clean`, run for at most `fuel` iterations;
every iteration advances `r`, so `n` iterations are enough. -/
def cleanLoop (path : List Char) (rooted : Bool) : Nat → CleanState → CleanState
  | 0, st => st
  | fuel + 1, st =>
    if st.r < path.length then cleanLoop path rooted fuel (cleanStep path rooted st) else st

/-- `path.Clean`. -/
def pathClean (path : List Char) : List Char :=
  if path = [] then
    ['.']
  else
    let rooted := path.head? = some '/'
    let start : CleanState :=
      if rooted then { r := 1, out := ['/'], dotdot := 1 } else { r := 0, out := [], dotdot := 0 }
    let out := (cleanLoop path rooted path.length start).out
    if out.length = 0 then ['.'] else out

/-- The directory returned by `path.Split`: the path up to and including its
last slash. -/
def pathSplitDir (path : List Char) : List Char :=
  (path.reverse.dropWhile (fun c => c != '/')).reverse

/-- The digits `strconv.AppendInt(b, v, 16)` appends for a byte `v ≥ 0x80`. -/
def hexByte (v : Nat) : List Char :=
  [hextable.data.getD (v / 16) '0', hextable.data.getD (v % 16) '0']

/-- `hexEscapeNonASCII` of `net/http`: every byte `≥ 0x80` becomes `%` and its two
lower-case hexadecimal digits.  An ASCII character is one byte and is kept; the
UTF-8 bytes of any other character are all `≥ 0x80`. -/
def hexEscapeNonASCII (s : List Char) : List Char :=
  s.flatMap (fun c =>
    if c.toNat < 0x80 then [c]
    else (String.utf8EncodeChar c).flatMap (fun b => '%' :: hexByte b.toNat))

/-- The `Location` header `http.Redirect(w, r, url, code)` sets, for a request
of path `oldpath`. -/
def httpRedirectLocation (oldpath url : String) : String :=
  let target : List Char :=
    if parsesAsRelative url.data then
      let oldpath := if oldpath = "" then ['/'] else oldpath.data
      let joined :=
        if url = "" ∨ url.data.head? ≠ some '/' then pathSplitDir oldpath ++ url.data
        else url.data
      let beforeQuery := joined.takeWhile (fun c => c != '?')
      let query := joined.dropWhile (fun c => c != '?')
      let trailing := beforeQuery.getLast? = some '/'
      let cleaned := pathClean beforeQuery
      let cleaned :=
        if trailing ∧ cleaned.getLast? ≠ some '/' then cleaned ++ ['/'] else cleaned
      cleaned ++ query
    else
      url.data
  ⟨hexEscapeNonASCII target⟩

/-- `r.URL.Query().Get(key)` and gin's `c.Query(key)`: the first value given for
`key`, the empty string when there is none. -/
def queryGet (query : List (String × String)) (key : String) : String :=
  match query.lookup key with
  | some v => v
  | none => ""

/-- `http.Error(w, error, code)`. -/
def httpError (error : String) (code : Nat) : Response :=
  { status := code, body := .text error }

/-- `json.Marshal` of a `map[string]string`: the encoded object and the error,
which is `nil` for every value of this type. -/
def jsonMarshal (body : List (String × String)) : Body × Option String :=
  (.json body, none)

/-- `HandleResponse` (go_http lines 44-56). -/
def HandleResponse (body : List (String × String)) (statusCode : Nat) : Response :=
  let (bodyByte, err) := jsonMarshal body
  match err with
  | some _ => { status := StatusInternalServerError, body := bodyByte }
  | none => { status := statusCode, body := bodyByte }

/-- `c.JSON(code, gin.H{...})`. -/
def ginJSON (code : Nat) (obj : List (String × String)) : Response :=
  { status := code, body := .json obj }

/-- `Service.shortenURLHandler` (go_http lines 120-159). -/
def shortenURLHandler (s : Session) (r : Request) : Response × Session :=
  if r.method ≠ "GET" then
    (httpError "Method not allowed" StatusMethodNotAllowed, s)
  else
    let longURL := queryGet r.query "long_url"
    if longURL = "" then
      (httpError "Missing 'long_url' parameter" StatusBadRequest, s)
    else
      let ((shortURL, exist, err), s1) := Find s longURL
      match err with
      | some e => (httpError ("Error checking URL: " ++ e) StatusInternalServerError, s1)
      | none =>
        if exist then
          (HandleResponse [("short_url", "http://localhost:8080/" ++ shortURL)] StatusOK, s1)
        else
          let (shortURL, err) := GenerateShortKey longURL
          match err with
          | some _ => (httpError "Error generating short URL" StatusInternalServerError, s1)
          | none =>
            let (err, s2) := Insert s1 shortURL longURL
            match err with
            | some _ =>
              (httpError "Error saving URL to database" StatusInternalServerError, s2)
            | none =>
              (HandleResponse [("short_url", "http://localhost:8080/" ++ shortURL)] StatusOK, s2)

/-- The handler of `GET /shorten` in go_gin (lines 117-147). -/
def ginShortenHandler (s : Session) (c : Request) : Response × Session :=
  let longURL := queryGet c.query "long_url"
  if longURL = "" then
    (ginJSON StatusBadRequest [("error", "Missing 'long_url' parameter")], s)
  else
    let ((shortURL, exist, err), s1) := Find s longURL
    match err with
    | some e =>
      (ginJSON StatusInternalServerError [("error", "Error checking URL: " ++ e)], s1)
    | none =>
      if exist then
        (ginJSON StatusOK [("short_url", "http://localhost:8080/" ++ shortURL)], s1)
      else
        let (shortURL, err) := GenerateShortKey longURL
        match err with
        | some _ =>
          (ginJSON StatusInternalServerError [("error", "Error generating short URL")], s1)
        | none =>
          let (err, s2) := Insert s1 shortURL longURL
          match err with
          | some _ =>
            (ginJSON StatusInternalServerError [("error", "Error saving URL to database")], s2)
          | none =>
            (ginJSON StatusOK [("short_url", "http://localhost:8080/" ++ shortURL)], s2)

/-- The request `GET /shorten?long_url=<longURL>`. -/
def shortenRequest (longURL : String) : Request :=
  { method := "GET", path := "/shorten", query := [("long_url", longURL)], params := [] }

/-- The successful response of `/shorten` for key `key`. -/
def shortenedAs (key : String) : Response :=
  { status := 200, body := .json [("short_url", "http://localhost:8080/" ++ key)] }

/-- The session of a freshly started service over an empty table, with no
store failure ahead. -/
def emptySession : Session := { urls := [], faults := [], executed := [] }

/-- Two long URLs whose MD5 digests start `b022ed9dd70c667f` and
`b022ed9dd70d1fd3`: their 11-digit encodings share the first 8 digits. -/
def collidingURL1 : String := "https://example.com/10630364"

/-- The second of the two colliding long URLs. -/
def collidingURL2 : String := "https://example.com/16671337"

/-- The session after `collidingURL1` has been shortened by a fresh service. -/
def sessionAfterFirst : Session :=
  (shortenURLHandler emptySession (shortenRequest collidingURL1)).2

/-- A long URL without scheme: `url.Parse` reads it as a relative path. -/
def schemelessURL : String := "example.com"

/-- Whether a statement is an `INSERT`. -/
def Statement.isInsert : Statement → Bool
  | .insertUrl _ _ => true
  | _ => false

/-- Whether a statement is the existence check of `Find`. -/
def Statement.isFind : Statement → Bool
  | .selectShortUrl _ => true
  | _ => false

/-! ## Reading a key back as a number -/

/-- The character of `base62Chars` at index `d`. -/
def digitChar (d : Nat) : Char := base62Chars.data.getD d 'A'

/-- The index of a character in `base62Chars` (62 for a foreign character). -/
def charIndex (c : Char) : Nat := base62Chars.data.indexOf c

/-- The value of a string of alphabet characters read as a base-62 numeral,
most significant digit first. -/
def evalBase62 (s : String) : Nat :=
  s.data.foldl (fun v c => v * 62 + charIndex c) 0

/-! ## Lemmas on the key derivation -/

theorem loopBody_hashInt (s : LoopState) : (loopBody s).hashInt = s.hashInt / 62 := rfl

theorem loopBody_shortKey (s : LoopState) :
    (loopBody s).shortKey = ⟨digitChar (s.hashInt % 62) :: s.shortKey.data⟩ := by
  apply String.ext
  have h : s.hashInt % 62 < base62Chars.data.length := Nat.mod_lt _ (by decide)
  simp [loopBody, digitChar, List.getElem?_eq_getElem h]

theorem base62Loop_eq_digits : ∀ (fuel n : Nat) (acc : String),
    (Nat.digits 62 n).length ≤ fuel →
    base62Loop fuel ⟨n, acc⟩ = ⟨0, ⟨(Nat.digits 62 n).reverse.map digitChar ++ acc.data⟩⟩ := by
  intro fuel
  induction fuel with
  | zero =>
    intro n acc h
    have hn : n = 0 := by
      have := List.length_eq_zero.mp (Nat.le_zero.mp h)
      exact Nat.digits_eq_nil_iff_eq_zero.mp this
    subst hn
    simp [base62Loop]
  | succ fuel ih =>
    intro n acc h
    rcases Nat.eq_zero_or_pos n with hn | hn
    · subst hn
      simp [base62Loop]
    · have hd : Nat.digits 62 n = n % 62 :: Nat.digits 62 (n / 62) :=
        Nat.digits_def' (by decide) hn
      have hlen : (Nat.digits 62 (n / 62)).length ≤ fuel := by
        rw [hd] at h
        simpa using h
      have hstep : base62Loop (fuel + 1) ⟨n, acc⟩ = base62Loop fuel (loopBody ⟨n, acc⟩) := by
        simp [base62Loop, hn]
      have hbody : loopBody ⟨n, acc⟩ = ⟨n / 62, ⟨digitChar (n % 62) :: acc.data⟩⟩ := by
        have h1 := loopBody_hashInt ⟨n, acc⟩
        have h2 := loopBody_shortKey ⟨n, acc⟩
        cases hb : loopBody ⟨n, acc⟩ with
        | mk a b =>
          rw [hb] at h1 h2
          simp only at h1 h2
          rw [h1, h2]
      rw [hstep, hbody, ih _ _ hlen, hd]
      simp

theorem digits_length_le_self (n : Nat) : (Nat.digits 62 n).length ≤ n := by
  rcases Nat.eq_zero_or_pos n with hn | hn
  · subst hn; simp
  · by_contra hlt
    push_neg at hlt
    have h1 : 62 ^ (Nat.digits 62 n).length ≤ 62 * n :=
      Nat.base_pow_length_digits_le 62 n (by decide) (by omega)
    have h2 : 62 ^ (n + 1) ≤ 62 ^ (Nat.digits 62 n).length :=
      Nat.pow_le_pow_right (by decide) hlt
    have h3 : n < 62 ^ n := Nat.lt_pow_self (by decide) n
    have h4 : 62 ^ (n + 1) = 62 * 62 ^ n := by ring
    omega

theorem digits_length_le_iff (n k : Nat) : (Nat.digits 62 n).length ≤ k ↔ n < 62 ^ k := by
  constructor
  · intro h
    exact lt_of_lt_of_le (Nat.lt_base_pow_length_digits (by decide))
      (Nat.pow_le_pow_right (by decide) h)
  · intro h
    rcases Nat.eq_zero_or_pos n with hn | hn
    · subst hn; simp
    · by_contra hlt
      push_neg at hlt
      have h1 : 62 ^ (Nat.digits 62 n).length ≤ 62 * n :=
        Nat.base_pow_length_digits_le 62 n (by decide) (by omega)
      have h2 : 62 ^ (k + 1) ≤ 62 ^ (Nat.digits 62 n).length :=
        Nat.pow_le_pow_right (by decide) hlt
      have h4 : 62 ^ (k + 1) = 62 * 62 ^ k := by ring
      omega

theorem encodeBase62_eq (n : Nat) :
    encodeBase62 n = ⟨(Nat.digits 62 n).reverse.map digitChar⟩ := by
  unfold encodeBase62
  rw [base62Loop_eq_digits n n "" (digits_length_le_self n)]
  simp

theorem encodeBase62_length (n : Nat) :
    (encodeBase62 n).length = (Nat.digits 62 n).length := by
  rw [encodeBase62_eq]; simp

theorem encodeBase62_data (n : Nat) :
    (encodeBase62 n).data = (Nat.digits 62 n).reverse.map digitChar := by
  rw [encodeBase62_eq]

theorem encodeBase62_length_le_iff (n k : Nat) :
    (encodeBase62 n).length ≤ k ↔ n < 62 ^ k := by
  rw [encodeBase62_length]; exact digits_length_le_iff n k

theorem digitChar_mem : ∀ d, d < 62 → digitChar d ∈ base62Chars.data := by decide

theorem charIndex_digitChar : ∀ d, d < 62 → charIndex (digitChar d) = d := by decide

theorem digitChar_ne_A : ∀ d, d < 62 → d ≠ 0 → digitChar d ≠ 'A' := by decide

theorem encodeBase62_mem (n : Nat) (c : Char) (hc : c ∈ (encodeBase62 n).data) :
    c ∈ base62Chars.data := by
  rw [encodeBase62_data] at hc
  obtain ⟨d, hd, rfl⟩ := List.mem_map.mp hc
  exact digitChar_mem d (Nat.digits_lt_base (by decide) (List.mem_reverse.mp hd))

theorem evalBase62_digits (L : List Nat) (hL : ∀ d ∈ L, d < 62) :
    evalBase62 ⟨L.reverse.map digitChar⟩ = Nat.ofDigits 62 L := by
  induction L with
  | nil => simp [evalBase62]
  | cons d L ih =>
    have hd : d < 62 := hL d (List.mem_cons_self _ _)
    have hL2 : ∀ x ∈ L, x < 62 := fun x hx => hL x (List.mem_cons_of_mem _ hx)
    have ih2 := ih hL2
    simp only [evalBase62] at ih2 ⊢
    simp only [List.reverse_cons, List.map_append, List.map_cons, List.map_nil,
      List.foldl_append, List.foldl_cons, List.foldl_nil, ih2, charIndex_digitChar d hd,
      Nat.ofDigits_cons]
    ring

theorem evalBase62_encodeBase62 (n : Nat) : evalBase62 (encodeBase62 n) = n := by
  rw [encodeBase62_eq, evalBase62_digits _ (fun d hd => Nat.digits_lt_base (by decide) hd),
    Nat.ofDigits_digits]

theorem encodeBase62_head (n : Nat) (hn : 0 < n) :
    ∃ c rest, (encodeBase62 n).data = c :: rest ∧ c ≠ 'A' := by
  have hne : Nat.digits 62 n ≠ [] := Nat.digits_ne_nil_iff_ne_zero.mpr (by omega)
  have hlast := Nat.getLast_digit_ne_zero 62 (m := n) (by omega)
  have hsplit := List.dropLast_append_getLast hne
  have hlt : (Nat.digits 62 n).getLast hne < 62 :=
    Nat.digits_lt_base (by decide) (List.getLast_mem hne)
  refine ⟨digitChar ((Nat.digits 62 n).getLast hne),
    (Nat.digits 62 n).dropLast.reverse.map digitChar, ?_, digitChar_ne_A _ hlt hlast⟩
  rw [encodeBase62_data]
  conv_lhs => rw [← hsplit]
  simp

theorem digits_div_pow (i : Nat) : ∀ n : Nat,
    Nat.digits 62 (n / 62 ^ i) = (Nat.digits 62 n).drop i := by
  induction i with
  | zero => intro n; simp
  | succ i ih =>
    intro n
    rcases Nat.eq_zero_or_pos n with hn | hn
    · subst hn; simp
    · have hd : Nat.digits 62 n = n % 62 :: Nat.digits 62 (n / 62) :=
        Nat.digits_def' (by decide) hn
      have h1 : n / 62 ^ (i + 1) = (n / 62) / 62 ^ i := by
        rw [pow_succ, mul_comm, Nat.div_div_eq_div_mul]
      rw [h1, ih (n / 62), hd]
      simp

theorem encodeBase62_take (n k : Nat) :
    (encodeBase62 n).take k = encodeBase62 (n / 62 ^ ((encodeBase62 n).length - k)) := by
  apply String.ext
  rw [String.data_take, encodeBase62_data, encodeBase62_data, encodeBase62_length,
    digits_div_pow, ← List.map_take, List.take_reverse]

theorem sprintfZeroPad_zero (w : Nat) (hw : 0 < w) :
    sprintfZeroPad w 0 = ⟨List.replicate w '0'⟩ := by
  obtain ⟨k, rfl⟩ : ∃ k, w = k + 1 := ⟨w - 1, by omega⟩
  apply String.ext
  have h0 : Nat.repr 0 = "0" := by decide
  simp only [sprintfZeroPad, h0, String.data_append]
  rw [List.replicate_succ']
  rfl

theorem normalizeLength_long (s : String) (h : 8 < s.length) :
    normalizeLength s = s.take 8 := by
  simp [normalizeLength, h]

theorem normalizeLength_short (s : String) (h : s.length < 6) :
    normalizeLength s = s ++ ⟨List.replicate (6 - s.length) '0'⟩ := by
  have h8 : ¬ s.length > 8 := by omega
  simp only [normalizeLength, h8, h, if_true, if_false]
  rw [sprintfZeroPad_zero _ (by omega)]

theorem normalizeLength_mid (s : String) (h6 : 6 ≤ s.length) (h8 : s.length ≤ 8) :
    normalizeLength s = s := by
  have h1 : ¬ s.length > 8 := by omega
  have h2 : ¬ s.length < 6 := by omega
  simp only [normalizeLength, h1, h2, if_false]

theorem normalizeLength_length (s : String) :
    6 ≤ (normalizeLength s).length ∧ (normalizeLength s).length ≤ 8 := by
  rcases Nat.lt_or_ge 8 s.length with h | h
  · rw [normalizeLength_long s h]
    have : (s.take 8).length = min 8 s.length := by
      rw [String.take_eq, String.length_mk, List.length_take]
      cases s; rfl
    omega
  · rcases Nat.lt_or_ge s.length 6 with h6 | h6
    · rw [normalizeLength_short s h6]
      simp
      omega
    · rw [normalizeLength_mid s h6 h]
      omega

theorem normalizeLength_mem (s : String) (c : Char) (hc : c ∈ (normalizeLength s).data) :
    c ∈ s.data ∨ c = '0' := by
  rcases Nat.lt_or_ge 8 s.length with h | h
  · rw [normalizeLength_long s h, String.data_take] at hc
    exact Or.inl (List.mem_of_mem_take hc)
  · rcases Nat.lt_or_ge s.length 6 with h6 | h6
    · rw [normalizeLength_short s h6, String.data_append, List.mem_append] at hc
      rcases hc with hc | hc
      · exact Or.inl hc
      · exact Or.inr (List.eq_of_mem_replicate hc)
    · rw [normalizeLength_mid s h6 h] at hc
      exact Or.inl hc

theorem setStringBase16_bound (f : Char → Nat) : ∀ (l : List Char) (a : Nat),
    (∀ c ∈ l, f c < 16) →
    l.foldl (fun acc c => acc * 16 + f c) a < (a + 1) * 16 ^ l.length := by
  intro l
  induction l with
  | nil => intro a _; simp
  | cons c l ih =>
    intro a h
    have hc : f c < 16 := h c (List.mem_cons_self _ _)
    have h2 := ih (a * 16 + f c) (fun x hx => h x (List.mem_cons_of_mem _ hx))
    simp only [List.foldl_cons, List.length_cons]
    have h3 : (a * 16 + f c + 1) * 16 ^ l.length ≤ (a + 1) * 16 ^ (l.length + 1) := by
      rw [pow_succ, ← mul_assoc, mul_comm (a + 1) (16 ^ l.length), mul_assoc,
        mul_comm (a * 16 + f c + 1)]
      apply Nat.mul_le_mul_left
      omega
    omega

theorem hexEncodeToString_mem (bytes : List Nat) (c : Char)
    (hc : c ∈ (hexEncodeToString bytes).data) : c ∈ hextable.data := by
  have hget : ∀ k, hextable.data.getD k '0' ∈ hextable.data := by
    intro k
    rcases Nat.lt_or_ge k 16 with hk | hk
    · revert k; decide
    · have : hextable.data.length ≤ k := hk
      rw [List.getD_eq_default _ _ this]; decide
  simp only [hexEncodeToString, List.mem_flatMap] at hc
  obtain ⟨b, _, hb⟩ := hc
  simp only [List.mem_cons, List.mem_singleton] at hb
  rcases hb with rfl | rfl | hb
  · exact hget _
  · exact hget _
  · exact absurd hb (List.not_mem_nil _)

theorem hashIntOf_lt (longURL : String) : hashIntOf longURL < 2 ^ 64 := by
  have hdig : ∀ c ∈ hextable.data, hextable.data.indexOf c.toLower < 16 := by decide
  unfold hashIntOf setStringBase16
  simp only
  set l := ((hexEncodeToString (md5Sum (stringBytes longURL))).take 16).data with hl
  have hmem : ∀ c ∈ l, hextable.data.indexOf c.toLower < 16 := by
    intro c hc
    rw [hl, String.data_take] at hc
    exact hdig c (hexEncodeToString_mem _ c (List.mem_of_mem_take hc))
  have hlen : l.length ≤ 16 := by
    rw [hl, String.data_take, List.length_take]; omega
  have hb := setStringBase16_bound (fun c => hextable.data.indexOf c.toLower) l 0 hmem
  beta_reduce at hb
  have hp : 16 ^ l.length ≤ 16 ^ 16 := Nat.pow_le_pow_right (by decide) hlen
  have : (16 : Nat) ^ 16 = 2 ^ 64 := by norm_num
  omega

theorem utf8ByteSize_go_ascii : ∀ l : List Char, (∀ c ∈ l, c.utf8Size = 1) →
    String.utf8ByteSize.go l = l.length := by
  intro l
  induction l with
  | nil => intro _; rfl
  | cons c l ih =>
    intro h
    have hc := h c (List.mem_cons_self _ _)
    have hl := ih (fun x hx => h x (List.mem_cons_of_mem _ hx))
    simp only [String.utf8ByteSize.go, hl, hc, List.length_cons]

theorem base62Chars_ascii : ∀ c ∈ base62Chars.data, c.utf8Size = 1 := by decide

theorem base62Chars_alphanum : ∀ c ∈ base62Chars.data, c.isAlphanum = true := by decide

theorem shortKeyOfHash_mem (n : Nat) (c : Char) (hc : c ∈ (shortKeyOfHash n).data) :
    c ∈ base62Chars.data := by
  rcases normalizeLength_mem _ c hc with h | h
  · exact encodeBase62_mem n c h
  · subst h; decide

theorem ascii_byte_length (s : String) (h : ∀ c ∈ s.data, c ∈ base62Chars.data) :
    s.utf8ByteSize = s.length := by
  cases s with
  | mk l => exact utf8ByteSize_go_ascii l (fun c hc => base62Chars_ascii c (h c hc))

/-! ## The hash and the handlers on concrete inputs -/

set_option maxRecDepth 100000 in
/-- The embedded `md5.Sum` and `hex.EncodeToString` on the test suite of RFC 1321:
the empty message, one-block messages, and a message of 80 bytes, which is
hashed in two blocks. -/
theorem md5_test_vectors :
    hexEncodeToString (md5Sum (stringBytes "")) = "d41d8cd98f00b204e9800998ecf8427e" ∧
    hexEncodeToString (md5Sum (stringBytes "a")) = "0cc175b9c0f1b6a831c399e269772661" ∧
    hexEncodeToString (md5Sum (stringBytes "abc")) = "900150983cd24fb0d6963f7d28e17f72" ∧
    hexEncodeToString (md5Sum (stringBytes
      "12345678901234567890123456789012345678901234567890123456789012345678901234567890"))
      = "57edf4a22be3c955ac49da2e2107b67a" := by
  decide


set_option maxRecDepth 100000 in
theorem first_request_created :
    shortenURLHandler emptySession (shortenRequest collidingURL1)
      = (shortenedAs "PHjVjYpT",
         { urls := [⟨"PHjVjYpT", collidingURL1⟩], faults := [],
           executed := [.selectShortUrl collidingURL1, .insertUrl "PHjVjYpT" collidingURL1] }) := by
  decide

set_option maxRecDepth 100000 in
theorem first_request_created_gin :
    ginShortenHandler emptySession (shortenRequest collidingURL1)
      = (shortenedAs "PHjVjYpT",
         { urls := [⟨"PHjVjYpT", collidingURL1⟩], faults := [],
           executed := [.selectShortUrl collidingURL1, .insertUrl "PHjVjYpT" collidingURL1] }) := by
  decide

set_option maxRecDepth 100000 in
theorem sessionAfterFirst_eq :
    sessionAfterFirst
      = { urls := [⟨"PHjVjYpT", collidingURL1⟩], faults := [],
          executed := [.selectShortUrl collidingURL1, .insertUrl "PHjVjYpT" collidingURL1] } := by
  decide

set_option maxRecDepth 100000 in
theorem second_request_found :
    shortenURLHandler sessionAfterFirst (shortenRequest collidingURL1)
      = (shortenedAs "PHjVjYpT",
         { urls := [⟨"PHjVjYpT", collidingURL1⟩], faults := [],
           executed := [.selectShortUrl collidingURL1, .insertUrl "PHjVjYpT" collidingURL1,
             .selectShortUrl collidingURL1] }) := by
  decide

set_option maxRecDepth 100000 in
theorem generated_keys_collide :
    GenerateShortKey collidingURL1 = ("PHjVjYpT", none) ∧
    GenerateShortKey collidingURL2 = ("PHjVjYpT", none) ∧
    hashIntOf collidingURL1 = 12691967962057041535 ∧
    hashIntOf collidingURL2 = 12691967962057088979 := by
  decide

set_option maxRecDepth 100000 in
theorem schemeless_request_created :
    shortenURLHandler emptySession (shortenRequest schemelessURL)
      = (shortenedAs "Hw66pGwK",
         { urls := [⟨"Hw66pGwK", schemelessURL⟩], faults := [],
           executed := [.selectShortUrl schemelessURL, .insertUrl "Hw66pGwK" schemelessURL] }) := by
  decide

/-- The embedded `http.Redirect` on targets of each kind: without scheme (made
absolute against the request path and cleaned), with scheme or host (kept),
refused by `url.Parse` (kept), and non-ASCII (percent-escaped). -/
theorem redirect_location_samples :
    httpRedirectLocation "/k" "example.com" = "/example.com" ∧
    httpRedirectLocation "/a/b" "../x?q=1" = "/x?q=1" ∧
    httpRedirectLocation "/k" "a/../../b/" = "/b/" ∧
    httpRedirectLocation "/k" "" = "/" ∧
    httpRedirectLocation "/k" "/x/./y/" = "/x/y/" ∧
    httpRedirectLocation "/k" "https://example.com/a/../b" = "https://example.com/a/../b" ∧
    httpRedirectLocation "/k" "//example.com/x" = "//example.com/x" ∧
    httpRedirectLocation "/k" "mailto:x@y" = "mailto:x@y" ∧
    httpRedirectLocation "/k" "1a:b" = "1a:b" ∧
    httpRedirectLocation "/k" "%zz" = "%zz" ∧
    httpRedirectLocation "/k" "https://example.com/ü" = "https://example.com/%c3%bc" ∧
    httpRedirectLocation "/k" "é.com" = "/%c3%a9.com" := by
  decide

/-- The embedded `path.Clean` on entries of the test table of package `path`. -/
theorem path_clean_samples :
    pathClean "".data = ".".data ∧
    pathClean "abc//def//ghi".data = "abc/def/ghi".data ∧
    pathClean "abc/./def".data = "abc/def".data ∧
    pathClean "abc/def/../ghi/../jkl".data = "abc/jkl".data ∧
    pathClean "abc/def/../../..".data = "..".data ∧
    pathClean "/abc/def/../../..".data = "/".data ∧
    pathClean "abc/def/../../../ghi/jkl/../../../mno".data = "../../mno".data ∧
    pathClean "abc/./../def".data = "def".data ∧
    pathClean "/../abc".data = "/abc".data ∧
    pathClean "abc/".data = "abc".data := by
  decide

attribute [irreducible] hashIntOf

theorem Session.sent_urls (s : Session) (q : Statement) : (s.sent q).urls = s.urls := rfl

theorem Session.sent_executed (s : Session) (q : Statement) :
    (s.sent q).executed = s.executed ++ [q] := rfl

theorem Find_fault (s : Session) (longURL msg : String) (h : s.nextFault = some msg) :
    Find s longURL
      = (("", false, some ("failed to find URL: " ++ msg)), s.sent (.selectShortUrl longURL)) := by
  simp [Find, Session.scanShortUrl, h, QueryError.message]

theorem Find_hit (s : Session) (longURL : String) (row : UrlMapping) (h : s.nextFault = none)
    (hr : s.urls.find? (fun row => row.long_url = longURL) = some row) :
    Find s longURL = ((row.short_url, true, none), s.sent (.selectShortUrl longURL)) := by
  simp [Find, Session.scanShortUrl, h, hr]

theorem Find_miss (s : Session) (longURL : String) (h : s.nextFault = none)
    (hr : s.urls.find? (fun row => row.long_url = longURL) = none) :
    Find s longURL = (("", false, none), s.sent (.selectShortUrl longURL)) := by
  simp [Find, Session.scanShortUrl, h, hr]

theorem Insert_fault (s : Session) (shortURL longURL msg : String)
    (h : s.nextFault = some msg) :
    Insert s shortURL longURL
      = (some ("failed to insert URL into DB: " ++ msg), s.sent (.insertUrl shortURL longURL)) := by
  simp [Insert, Session.execInsert, h, QueryError.message]

theorem Insert_ok (s : Session) (shortURL longURL : String) (h : s.nextFault = none) :
    Insert s shortURL longURL
      = (none, { s.sent (.insertUrl shortURL longURL) with
                  urls := s.urls ++ [⟨shortURL, longURL⟩] }) := by
  simp [Insert, Session.execInsert, h]

theorem HandleResponse_eq (body : List (String × String)) (code : Nat) :
    HandleResponse body code = { status := code, body := .json body } := rfl

theorem shortenURLHandler_missing (s : Session) (r : Request) (hm : r.method = "GET")
    (hl : queryGet r.query "long_url" = "") :
    shortenURLHandler s r = (httpError "Missing 'long_url' parameter" 400, s) := by
  simp only [shortenURLHandler, hm, hl, StatusBadRequest, ne_eq, not_true_eq_false, if_false,
    if_true]

theorem shortenURLHandler_find_fault (s : Session) (r : Request) (msg : String)
    (hm : r.method = "GET") (hl : queryGet r.query "long_url" ≠ "")
    (hf : s.nextFault = some msg) :
    shortenURLHandler s r
      = (httpError ("Error checking URL: " ++ ("failed to find URL: " ++ msg)) 500,
         s.sent (.selectShortUrl (queryGet r.query "long_url"))) := by
  simp only [shortenURLHandler, hm, hl, Find_fault s _ msg hf, StatusInternalServerError, ne_eq,
    not_true_eq_false, if_false]

theorem shortenURLHandler_hit (s : Session) (r : Request) (row : UrlMapping)
    (hm : r.method = "GET") (hl : queryGet r.query "long_url" ≠ "")
    (hf : s.nextFault = none)
    (hr : s.urls.find? (fun row => row.long_url = queryGet r.query "long_url") = some row) :
    shortenURLHandler s r
      = (shortenedAs row.short_url, s.sent (.selectShortUrl (queryGet r.query "long_url"))) := by
  simp only [shortenURLHandler, hm, hl, Find_hit s _ row hf hr, HandleResponse_eq, StatusOK,
    shortenedAs, ne_eq, not_true_eq_false, if_false, if_true]

theorem shortenURLHandler_insert_fault (s : Session) (r : Request) (msg : String)
    (hm : r.method = "GET") (hl : queryGet r.query "long_url" ≠ "")
    (hf : s.nextFault = none)
    (hr : s.urls.find? (fun row => row.long_url = queryGet r.query "long_url") = none)
    (hi : (s.sent (.selectShortUrl (queryGet r.query "long_url"))).nextFault = some msg) :
    shortenURLHandler s r
      = (httpError "Error saving URL to database" 500,
         (s.sent (.selectShortUrl (queryGet r.query "long_url"))).sent
           (.insertUrl (shortKeyOfHash (hashIntOf (queryGet r.query "long_url")))
             (queryGet r.query "long_url"))) := by
  simp only [shortenURLHandler, hm, hl, Find_miss s _ hf hr, GenerateShortKey,
    Insert_fault _ _ _ msg hi, StatusInternalServerError, ne_eq, not_true_eq_false, if_false,
    Bool.false_eq_true]

theorem shortenURLHandler_created (s : Session) (r : Request)
    (hm : r.method = "GET") (hl : queryGet r.query "long_url" ≠ "")
    (hf : s.nextFault = none)
    (hr : s.urls.find? (fun row => row.long_url = queryGet r.query "long_url") = none)
    (hi : (s.sent (.selectShortUrl (queryGet r.query "long_url"))).nextFault = none) :
    shortenURLHandler s r
      = (shortenedAs (shortKeyOfHash (hashIntOf (queryGet r.query "long_url"))),
         { (s.sent (.selectShortUrl (queryGet r.query "long_url"))).sent
             (.insertUrl (shortKeyOfHash (hashIntOf (queryGet r.query "long_url")))
               (queryGet r.query "long_url")) with
           urls := s.urls ++ [⟨shortKeyOfHash (hashIntOf (queryGet r.query "long_url")),
             queryGet r.query "long_url"⟩] }) := by
  simp only [shortenURLHandler, hm, hl, Find_miss s _ hf hr, GenerateShortKey,
    Insert_ok _ _ _ hi, HandleResponse_eq, StatusOK, shortenedAs, Session.sent_urls, ne_eq,
    not_true_eq_false, if_false, Bool.false_eq_true]

theorem ginShortenHandler_missing (s : Session) (r : Request)
    (hl : queryGet r.query "long_url" = "") :
    ginShortenHandler s r = (ginJSON 400 [("error", "Missing 'long_url' parameter")], s) := by
  simp only [ginShortenHandler, hl, StatusBadRequest, if_true]

theorem ginShortenHandler_find_fault (s : Session) (r : Request) (msg : String)
    (hl : queryGet r.query "long_url" ≠ "") (hf : s.nextFault = some msg) :
    ginShortenHandler s r
      = (ginJSON 500 [("error", "Error checking URL: " ++ ("failed to find URL: " ++ msg))],
         s.sent (.selectShortUrl (queryGet r.query "long_url"))) := by
  simp only [ginShortenHandler, hl, Find_fault s _ msg hf, StatusInternalServerError, if_false]

theorem ginShortenHandler_hit (s : Session) (r : Request) (row : UrlMapping)
    (hl : queryGet r.query "long_url" ≠ "") (hf : s.nextFault = none)
    (hr : s.urls.find? (fun row => row.long_url = queryGet r.query "long_url") = some row) :
    ginShortenHandler s r
      = (shortenedAs row.short_url, s.sent (.selectShortUrl (queryGet r.query "long_url"))) := by
  simp only [ginShortenHandler, hl, Find_hit s _ row hf hr, ginJSON, StatusOK,
    shortenedAs, if_false, if_true]

theorem ginShortenHandler_insert_fault (s : Session) (r : Request) (msg : String)
    (hl : queryGet r.query "long_url" ≠ "") (hf : s.nextFault = none)
    (hr : s.urls.find? (fun row => row.long_url = queryGet r.query "long_url") = none)
    (hi : (s.sent (.selectShortUrl (queryGet r.query "long_url"))).nextFault = some msg) :
    ginShortenHandler s r
      = (ginJSON 500 [("error", "Error saving URL to database")],
         (s.sent (.selectShortUrl (queryGet r.query "long_url"))).sent
           (.insertUrl (shortKeyOfHash (hashIntOf (queryGet r.query "long_url")))
             (queryGet r.query "long_url"))) := by
  simp only [ginShortenHandler, hl, Find_miss s _ hf hr, GenerateShortKey,
    Insert_fault _ _ _ msg hi, StatusInternalServerError, if_false, Bool.false_eq_true]

theorem ginShortenHandler_created (s : Session) (r : Request)
    (hl : queryGet r.query "long_url" ≠ "") (hf : s.nextFault = none)
    (hr : s.urls.find? (fun row => row.long_url = queryGet r.query "long_url") = none)
    (hi : (s.sent (.selectShortUrl (queryGet r.query "long_url"))).nextFault = none) :
    ginShortenHandler s r
      = (shortenedAs (shortKeyOfHash (hashIntOf (queryGet r.query "long_url"))),
         { (s.sent (.selectShortUrl (queryGet r.query "long_url"))).sent
             (.insertUrl (shortKeyOfHash (hashIntOf (queryGet r.query "long_url")))
               (queryGet r.query "long_url")) with
           urls := s.urls ++ [⟨shortKeyOfHash (hashIntOf (queryGet r.query "long_url")),
             queryGet r.query "long_url"⟩] }) := by
  simp only [ginShortenHandler, hl, Find_miss s _ hf hr, GenerateShortKey,
    Insert_ok _ _ _ hi, ginJSON, StatusOK, shortenedAs, Session.sent_urls, if_false,
    Bool.false_eq_true]

/-- The five ways through either `/shorten` handler, by the long URL read from
the request, the faults ahead and the rows of the table. -/
theorem shorten_cases (s : Session) (r : Request) (hm : r.method = "GET")
    (handler : Session → Request → Response × Session)
    (hh : handler ∈ [shortenURLHandler, ginShortenHandler]) :
    (queryGet r.query "long_url" = "" → ∃ b, handler s r = (⟨400, b⟩, s)) ∧
    (queryGet r.query "long_url" ≠ "" → ∀ msg, s.nextFault = some msg →
      ∃ b, handler s r = (⟨500, b⟩, s.sent (.selectShortUrl (queryGet r.query "long_url")))) ∧
    (queryGet r.query "long_url" ≠ "" → s.nextFault = none → ∀ row,
      s.urls.find? (fun row => row.long_url = queryGet r.query "long_url") = some row →
      handler s r
        = (shortenedAs row.short_url, s.sent (.selectShortUrl (queryGet r.query "long_url")))) ∧
    (queryGet r.query "long_url" ≠ "" → s.nextFault = none →
      s.urls.find? (fun row => row.long_url = queryGet r.query "long_url") = none →
      ∀ msg, (s.sent (.selectShortUrl (queryGet r.query "long_url"))).nextFault = some msg →
      ∃ b, handler s r
        = (⟨500, b⟩, (s.sent (.selectShortUrl (queryGet r.query "long_url"))).sent
            (.insertUrl (shortKeyOfHash (hashIntOf (queryGet r.query "long_url")))
              (queryGet r.query "long_url")))) ∧
    (queryGet r.query "long_url" ≠ "" → s.nextFault = none →
      s.urls.find? (fun row => row.long_url = queryGet r.query "long_url") = none →
      (s.sent (.selectShortUrl (queryGet r.query "long_url"))).nextFault = none →
      handler s r
        = (shortenedAs (shortKeyOfHash (hashIntOf (queryGet r.query "long_url"))),
           { (s.sent (.selectShortUrl (queryGet r.query "long_url"))).sent
               (.insertUrl (shortKeyOfHash (hashIntOf (queryGet r.query "long_url")))
                 (queryGet r.query "long_url")) with
             urls := s.urls ++ [⟨shortKeyOfHash (hashIntOf (queryGet r.query "long_url")),
               queryGet r.query "long_url"⟩] })) := by
  simp only [List.mem_cons, List.mem_singleton, List.not_mem_nil, or_false] at hh
  rcases hh with rfl | rfl
  · exact ⟨fun hl => ⟨_, shortenURLHandler_missing s r hm hl⟩,
      fun hl msg hf => ⟨_, shortenURLHandler_find_fault s r msg hm hl hf⟩,
      fun hl hf row hr => shortenURLHandler_hit s r row hm hl hf hr,
      fun hl hf hr msg hi => ⟨_, shortenURLHandler_insert_fault s r msg hm hl hf hr hi⟩,
      fun hl hf hr hi => shortenURLHandler_created s r hm hl hf hr hi⟩
  · exact ⟨fun hl => ⟨_, ginShortenHandler_missing s r hl⟩,
      fun hl msg hf => ⟨_, ginShortenHandler_find_fault s r msg hl hf⟩,
      fun hl hf row hr => ginShortenHandler_hit s r row hl hf hr,
      fun hl hf hr msg hi => ⟨_, ginShortenHandler_insert_fault s r msg hl hf hr hi⟩,
      fun hl hf hr hi => ginShortenHandler_created s r hl hf hr hi⟩

theorem GenerateShortKey_fst (longURL : String) :
    (GenerateShortKey longURL).1 = shortKeyOfHash (hashIntOf longURL) := by
  simp only [GenerateShortKey]

/-! ## Properties of the key derivation -/

/-- C1, length invariant: for every integer `n` read from the hash prefix, and so
for every long URL (whose hash prefix is an integer below `2^64`), the key
returned by `GenerateShortKey` has at least 6 and at most 8 characters; the key
is ASCII, so this is also its length in bytes, which is what Go's `len` counts.
The error returned is `nil`. -/
theorem key_length_between_6_and_8 (longURL : String) (n : Nat) :
    (6 ≤ (shortKeyOfHash n).length ∧ (shortKeyOfHash n).length ≤ 8) ∧
    (shortKeyOfHash n).utf8ByteSize = (shortKeyOfHash n).length ∧
    hashIntOf longURL < 2 ^ 64 ∧
    GenerateShortKey longURL = (shortKeyOfHash (hashIntOf longURL), none) ∧
    6 ≤ (GenerateShortKey longURL).1.length ∧ (GenerateShortKey longURL).1.length ≤ 8 := by
  have hkey : ∀ m : Nat, 6 ≤ (shortKeyOfHash m).length ∧ (shortKeyOfHash m).length ≤ 8 :=
    fun m => normalizeLength_length (encodeBase62 m)
  rw [GenerateShortKey_fst]
  exact ⟨hkey n, ascii_byte_length _ (shortKeyOfHash_mem n), hashIntOf_lt longURL,
    by simp only [GenerateShortKey], hkey (hashIntOf longURL)⟩

/-- C2, alphabet invariant: every character of the key returned by
`GenerateShortKey`, padding included, is one of the 62 characters of
`base62Chars`, which are the letters `A-Z`, `a-z` and the digits `0-9`. -/
theorem key_chars_in_alphabet (longURL : String) (n : Nat) :
    (∀ c ∈ (shortKeyOfHash n).data, c ∈ base62Chars.data) ∧
    (∀ c ∈ (GenerateShortKey longURL).1.data, c ∈ base62Chars.data) ∧
    base62Chars.data.length = 62 ∧ base62Chars.data.Nodup ∧
    (∀ c ∈ base62Chars.data, c.isAlphanum = true) := by
  rw [GenerateShortKey_fst]
  exact ⟨shortKeyOfHash_mem n, shortKeyOfHash_mem (hashIntOf longURL), by decide, by decide,
    base62Chars_alphanum⟩

/-- C5, padding: when the base-62 encoding `e` of `n` has fewer than 6 characters,
which is the case exactly when `n < 62^5`, `GenerateShortKey` returns `e` followed
by `6 - len(e)` characters `0`; the value 0 has the empty encoding and the key
`000000`. -/
theorem short_encoding_padded_right (n : Nat) (h : n < 62 ^ 5) :
    (encodeBase62 n).length < 6 ∧
    shortKeyOfHash n =
      encodeBase62 n ++ ⟨List.replicate (6 - (encodeBase62 n).length) '0'⟩ ∧
    (shortKeyOfHash n).data.take (encodeBase62 n).length = (encodeBase62 n).data ∧
    (∀ m : Nat, (encodeBase62 m).length < 6 ↔ m < 62 ^ 5) ∧
    encodeBase62 0 = "" ∧ shortKeyOfHash 0 = "000000" := by
  have hiff : ∀ m : Nat, (encodeBase62 m).length < 6 ↔ m < 62 ^ 5 := by
    intro m
    rw [← encodeBase62_length_le_iff m 5]
    omega
  have hlen : (encodeBase62 n).length < 6 := (hiff n).mpr h
  have hkey := normalizeLength_short (encodeBase62 n) hlen
  refine ⟨hlen, hkey, ?_, hiff, by decide, by decide⟩
  unfold shortKeyOfHash
  rw [hkey, String.data_append]
  have : (encodeBase62 n).length = (encodeBase62 n).data.length := by
    cases encodeBase62 n; rfl
  rw [this, List.take_left]

/-- C6, truncation: when the base-62 encoding `e` of `n` has more than 8
characters, which is the case exactly when `n ≥ 62^8`, `GenerateShortKey` returns
the first 8 characters of `e`: the 8 most significant digits, the encoding of
`n / 62^(len(e) - 8)`. -/
theorem long_encoding_truncated (n : Nat) (h : 62 ^ 8 ≤ n) :
    8 < (encodeBase62 n).length ∧
    shortKeyOfHash n = (encodeBase62 n).take 8 ∧
    (shortKeyOfHash n).data = (encodeBase62 n).data.take 8 ∧
    shortKeyOfHash n = encodeBase62 (n / 62 ^ ((encodeBase62 n).length - 8)) ∧
    (∀ m : Nat, 8 < (encodeBase62 m).length ↔ 62 ^ 8 ≤ m) := by
  have hiff : ∀ m : Nat, 8 < (encodeBase62 m).length ↔ 62 ^ 8 ≤ m := by
    intro m
    have := encodeBase62_length_le_iff m 8
    omega
  have hlen : 8 < (encodeBase62 n).length := (hiff n).mpr h
  have hkey : shortKeyOfHash n = (encodeBase62 n).take 8 := normalizeLength_long _ hlen
  refine ⟨hlen, hkey, ?_, ?_, hiff⟩
  · rw [hkey, String.data_take]
  · rw [hkey, encodeBase62_take]

/-- C9, base-62 encoding: for `n < 2^64` the loop is left after at most 11
iterations with `hashInt = 0` (more fuel changes nothing, and the `n` iterations
granted by `encodeBase62` are enough), and the accumulator it leaves is the
canonical big-endian base-62 numeral of `n`: its characters belong to
`base62Chars`, reading them back by their index in `base62Chars`, most significant
first, gives `n`, it is empty for `n = 0`, and for `n > 0` it starts with a
character other than `A`. -/
theorem loop_builds_canonical_numeral (n : Nat) (h : n < 2 ^ 64) :
    (∀ fuel, 11 ≤ fuel →
      base62Loop fuel { hashInt := n, shortKey := "" }
        = { hashInt := 0, shortKey := encodeBase62 n }) ∧
    base62Loop n { hashInt := n, shortKey := "" }
      = { hashInt := 0, shortKey := encodeBase62 n } ∧
    (∀ c ∈ (encodeBase62 n).data, c ∈ base62Chars.data) ∧
    evalBase62 (encodeBase62 n) = n ∧
    (n = 0 → encodeBase62 n = "") ∧
    (0 < n → ∃ c rest, (encodeBase62 n).data = c :: rest ∧ c ≠ 'A') := by
  have h11 : (Nat.digits 62 n).length ≤ 11 := by
    rw [digits_length_le_iff]
    have : (2 : Nat) ^ 64 < 62 ^ 11 := by norm_num
    omega
  have hrun : ∀ fuel, (Nat.digits 62 n).length ≤ fuel →
      base62Loop fuel { hashInt := n, shortKey := "" }
        = { hashInt := 0, shortKey := encodeBase62 n } := by
    intro fuel hf
    rw [base62Loop_eq_digits fuel n "" hf, encodeBase62_eq]
    simp
  refine ⟨fun fuel hf => hrun fuel (le_trans h11 hf), hrun n (digits_length_le_self n),
    encodeBase62_mem n, evalBase62_encodeBase62 n, ?_, encodeBase62_head n⟩
  intro h0
  subst h0
  decide

/-- C10, padding collides with the digit `0`: the values 0 and
`52 * (62^5 + 62^4 + 62^3 + 62^2 + 62 + 1) = 48419872956` are distinct, both below
`62^6`, neither encoding is longer than 8 characters, and both get the key
`000000`, because the pad character `0` is the alphabet character of digit 52. -/
theorem padding_not_injective :
    (0 : Nat) ≠ 48419872956 ∧
    52 * (62 ^ 5 + 62 ^ 4 + 62 ^ 3 + 62 ^ 2 + 62 + 1) = 48419872956 ∧
    48419872956 < 62 ^ 6 ∧
    (encodeBase62 0).length ≤ 8 ∧ (encodeBase62 48419872956).length ≤ 8 ∧
    digitChar 52 = '0' ∧
    encodeBase62 0 = "" ∧ encodeBase62 48419872956 = "000000" ∧
    shortKeyOfHash 0 = "000000" ∧ shortKeyOfHash 48419872956 = "000000" ∧
    (∃ n m : Nat, n ≠ m ∧ n < 62 ^ 6 ∧ m < 62 ^ 6 ∧ shortKeyOfHash n = shortKeyOfHash m) := by
  refine ⟨by decide, by decide, by decide, by decide, by decide, by decide, by decide,
    by decide, by decide, by decide, 0, 48419872956, ?_⟩
  decide

/-- Witness of C5 at `n = 61`, whose encoding is the single character `9`. -/
theorem short_encoding_padded_right_witness :
    61 < 62 ^ 5 ∧ encodeBase62 61 = "9" ∧ shortKeyOfHash 61 = "900000" :=
  ⟨by decide, by decide,
    (short_encoding_padded_right 61 (by decide)).2.1.trans (by decide)⟩

/-- Witness of C6 at `n = 62^10 - 1`, whose encoding has the 10 digits
`9999999999`. -/
theorem long_encoding_truncated_witness :
    62 ^ 8 ≤ 839299365868340223 ∧ encodeBase62 839299365868340223 = "9999999999" ∧
    shortKeyOfHash 839299365868340223 = "99999999" ∧
    shortKeyOfHash 839299365868340223 = encodeBase62 (839299365868340223 / 62 ^ 2) :=
  ⟨by decide, by decide, by decide,
    (long_encoding_truncated 839299365868340223 (by decide)).2.2.2.1.trans (by decide)⟩

/-- Witness of C9 at `n = 2^64 - 1`. -/
theorem loop_builds_canonical_numeral_witness :
    18446744073709551615 < 2 ^ 64 ∧
    base62Loop 11 { hashInt := 18446744073709551615, shortKey := "" }
      = { hashInt := 0, shortKey := encodeBase62 18446744073709551615 } ∧
    evalBase62 (encodeBase62 18446744073709551615) = 18446744073709551615 :=
  ⟨by decide,
    (loop_builds_canonical_numeral 18446744073709551615 (by decide)).1 11 (le_refl 11),
    (loop_builds_canonical_numeral 18446744073709551615 (by decide)).2.2.2.1⟩

/-! ## Properties of the handlers -/

/-- C7, status of `GET /shorten`, for either front-end: the response is 400 exactly
when the `long_url` parameter is missing or empty, and then the session is
untouched; otherwise it is 500 exactly when `Find` returns an error (and then
only the existence check has been sent) or `Find` misses and `Insert` returns an
error; otherwise it is 200 with `short_url` the base URL followed by the key
found or generated (`GenerateShortKey` never returns an error).  A request
sends nothing, one existence check, or one existence check and one insert. -/
theorem shorten_status (s : Session) (r : Request) (longURL : String)
    (handler : Session → Request → Response × Session)
    (hh : handler ∈ [shortenURLHandler, ginShortenHandler])
    (hm : r.method = "GET") (hq : queryGet r.query "long_url" = longURL) :
    ((handler s r).1.status = 400 ↔ longURL = "") ∧
    (longURL = "" ↔
      r.query.lookup "long_url" = none ∨ r.query.lookup "long_url" = some "") ∧
    (longURL = "" → (handler s r).2 = s) ∧
    (longURL ≠ "" →
      ((handler s r).1.status = 500 ↔
        (Find s longURL).1.2.2 ≠ none ∨
        ((Find s longURL).1.2 = (false, none) ∧
          (Insert (Find s longURL).2 (GenerateShortKey longURL).1 longURL).1 ≠ none))) ∧
    (longURL ≠ "" → (Find s longURL).1.2.2 ≠ none →
      (handler s r).2.urls = s.urls ∧
      (handler s r).2.executed = s.executed ++ [.selectShortUrl longURL]) ∧
    ((handler s r).1.status ≠ 400 → (handler s r).1.status ≠ 500 →
      (handler s r).1 = shortenedAs
        (if (Find s longURL).1.2.1 then (Find s longURL).1.1
         else (GenerateShortKey longURL).1)) ∧
    (GenerateShortKey longURL).2 = none ∧
    ((handler s r).2.executed = s.executed ∨
      (handler s r).2.executed = s.executed ++ [.selectShortUrl longURL] ∨
      (handler s r).2.executed = s.executed ++
        [.selectShortUrl longURL, .insertUrl (GenerateShortKey longURL).1 longURL]) := by
  subst hq
  obtain ⟨c1, c2, c3, c4, c5⟩ := shorten_cases s r hm handler hh
  have hlook : queryGet r.query "long_url" = "" ↔
      r.query.lookup "long_url" = none ∨ r.query.lookup "long_url" = some "" := by
    unfold queryGet
    cases r.query.lookup "long_url" <;> simp
  have hgen : (GenerateShortKey (queryGet r.query "long_url")).2 = none := by
    simp only [GenerateShortKey]
  refine ⟨?_, hlook, ?_, ?_, ?_, ?_, hgen, ?_⟩
  all_goals try simp only [GenerateShortKey_fst]
  all_goals
    by_cases hl : queryGet r.query "long_url" = ""
    · obtain ⟨b, hb⟩ := c1 hl
      simp [hb, hl]
    · cases hf : s.nextFault with
      | some msg =>
        obtain ⟨b, hb⟩ := c2 hl msg hf
        simp [hb, hl, Find_fault s _ msg hf, Session.sent_urls, Session.sent_executed]
      | none =>
        cases hr : s.urls.find? (fun row => row.long_url = queryGet r.query "long_url") with
        | some row =>
          have hb := c3 hl hf row hr
          simp [hb, hl, Find_hit s _ row hf hr, Session.sent_urls, Session.sent_executed, shortenedAs]
        | none =>
          cases hi : (s.sent (.selectShortUrl (queryGet r.query "long_url"))).nextFault with
          | some msg =>
            obtain ⟨b, hb⟩ := c4 hl hf hr msg hi
            simp [hb, hl, Find_miss s _ hf hr, Insert_fault _ _ _ msg hi, Session.sent_urls, Session.sent_executed]
          | none =>
            have hb := c5 hl hf hr hi
            simp [hb, hl, Find_miss s _ hf hr, Insert_ok _ _ _ hi, Session.sent_urls, Session.sent_executed, shortenedAs]

/-- C4, idempotent shortening: when two successive `GET /shorten` requests for
the same long URL, each served by either front-end, both succeed, they return the
same key, the second one only sends the existence check and leaves the rows as
they are, and the two requests together send two existence checks and at most
one insert. -/
theorem shorten_twice_same_key (s : Session) (r1 r2 : Request)
    (handler1 handler2 : Session → Request → Response × Session)
    (hh1 : handler1 ∈ [shortenURLHandler, ginShortenHandler])
    (hh2 : handler2 ∈ [shortenURLHandler, ginShortenHandler])
    (hm1 : r1.method = "GET") (hm2 : r2.method = "GET")
    (hq : queryGet r2.query "long_url" = queryGet r1.query "long_url")
    (h1 : (handler1 s r1).1.status = 200)
    (h2 : (handler2 (handler1 s r1).2 r2).1.status = 200) :
    ∃ key,
      (handler1 s r1).1 = shortenedAs key ∧
      (handler2 (handler1 s r1).2 r2).1 = shortenedAs key ∧
      (handler2 (handler1 s r1).2 r2).2.urls = (handler1 s r1).2.urls ∧
      (handler2 (handler1 s r1).2 r2).2.executed
        = (handler1 s r1).2.executed ++ [.selectShortUrl (queryGet r1.query "long_url")] ∧
      ∃ ops, (handler2 (handler1 s r1).2 r2).2.executed = s.executed ++ ops ∧
        ops.countP Statement.isInsert ≤ 1 ∧ ops.countP Statement.isFind = 2 := by
  obtain ⟨c1, c2, c3, c4, c5⟩ := shorten_cases s r1 hm1 handler1 hh1
  have second := fun s1 => shorten_cases s1 r2 hm2 handler2 hh2
  rw [hq] at second
  by_cases hl : queryGet r1.query "long_url" = ""
  · obtain ⟨b, hb⟩ := c1 hl
    rw [hb] at h1
    simp at h1
  · cases hf : s.nextFault with
    | some msg =>
      obtain ⟨b, hb⟩ := c2 hl msg hf
      rw [hb] at h1
      simp at h1
    | none =>
      cases hr : s.urls.find? (fun row => row.long_url = queryGet r1.query "long_url") with
      | some row =>
        have hb := c3 hl hf row hr
        rw [hb] at h2 ⊢
        obtain ⟨_, e2, e3, _, _⟩ := second (s.sent (.selectShortUrl (queryGet r1.query "long_url")))
        cases hf2 : (s.sent (.selectShortUrl (queryGet r1.query "long_url"))).nextFault with
        | some msg =>
          obtain ⟨b, hb2⟩ := e2 hl msg hf2
          rw [hb2] at h2
          simp at h2
        | none =>
          have hb2 := e3 hl hf2 row (by rw [Session.sent_urls]; exact hr)
          rw [hb2]
          refine ⟨row.short_url, rfl, rfl, rfl, rfl,
            [.selectShortUrl (queryGet r1.query "long_url"),
              .selectShortUrl (queryGet r1.query "long_url")], ?_, ?_, ?_⟩
          · simp [Session.sent_executed]
          · simp [List.countP_cons, Statement.isInsert]
          · simp [List.countP_cons, Statement.isFind]
      | none =>
        cases hi : (s.sent (.selectShortUrl (queryGet r1.query "long_url"))).nextFault with
        | some msg =>
          obtain ⟨b, hb⟩ := c4 hl hf hr msg hi
          rw [hb] at h1
          simp at h1
        | none =>
          have hb := c5 hl hf hr hi
          rw [hb] at h2 ⊢
          generalize hs1 : ({ (s.sent (.selectShortUrl (queryGet r1.query "long_url"))).sent
               (.insertUrl (shortKeyOfHash (hashIntOf (queryGet r1.query "long_url")))
                 (queryGet r1.query "long_url")) with
             urls := s.urls ++ [⟨shortKeyOfHash (hashIntOf (queryGet r1.query "long_url")),
               queryGet r1.query "long_url"⟩] } : Session) = s1 at h2 ⊢
          have hu : s1.urls
              = s.urls ++ [⟨shortKeyOfHash (hashIntOf (queryGet r1.query "long_url")),
               queryGet r1.query "long_url"⟩] := by rw [← hs1]
          have he : s1.executed
              = s.executed ++ [.selectShortUrl (queryGet r1.query "long_url"),
              .insertUrl (shortKeyOfHash (hashIntOf (queryGet r1.query "long_url")))
                 (queryGet r1.query "long_url")] := by
            rw [← hs1]; simp [Session.sent_executed]
          have hfind : s1.urls.find? (fun row => row.long_url = queryGet r1.query "long_url")
              = some ⟨shortKeyOfHash (hashIntOf (queryGet r1.query "long_url")),
               queryGet r1.query "long_url"⟩ := by
            rw [hu, List.find?_append, hr]
            simp
          obtain ⟨_, e2, e3, _, _⟩ := second s1
          cases hf2 : s1.nextFault with
          | some msg =>
            obtain ⟨b, hb2⟩ := e2 hl msg hf2
            rw [hb2] at h2
            simp at h2
          | none =>
            have hb2 := e3 hl hf2 _ hfind
            rw [hb2]
            refine ⟨shortKeyOfHash (hashIntOf (queryGet r1.query "long_url")), rfl, rfl, rfl, rfl,
              [.selectShortUrl (queryGet r1.query "long_url"),
                .insertUrl (shortKeyOfHash (hashIntOf (queryGet r1.query "long_url")))
                  (queryGet r1.query "long_url"),
                .selectShortUrl (queryGet r1.query "long_url")], ?_, ?_, ?_⟩
            · simp [Session.sent_executed, he]
            · simp [List.countP_cons, Statement.isInsert]
            · simp [List.countP_cons, Statement.isFind]

/-! ## The properties at concrete requests -/

/-- Witness of C7: the first request of a fresh service for `collidingURL1`. -/
theorem shorten_status_witness :
    (shortenRequest collidingURL1).method = "GET" ∧
    queryGet (shortenRequest collidingURL1).query "long_url" = collidingURL1 ∧
    ((shortenURLHandler emptySession (shortenRequest collidingURL1)).1.status = 400
      ↔ collidingURL1 = "") ∧
    (shortenURLHandler emptySession (shortenRequest collidingURL1)).1.status = 200 :=
  ⟨rfl, rfl,
    (shorten_status emptySession (shortenRequest collidingURL1) collidingURL1 shortenURLHandler
      (List.mem_cons_self _ _) rfl rfl).1,
    by rw [first_request_created]; rfl⟩

/-- Witness of C4: `collidingURL1` shortened twice by a fresh service; the first
request inserts the row, the second finds it. -/
theorem shorten_twice_same_key_witness :
    (shortenURLHandler emptySession (shortenRequest collidingURL1)).1.status = 200 ∧
    (shortenURLHandler (shortenURLHandler emptySession (shortenRequest collidingURL1)).2
      (shortenRequest collidingURL1)).1.status = 200 ∧
    ∃ key,
      (shortenURLHandler emptySession (shortenRequest collidingURL1)).1 = shortenedAs key ∧
      (shortenURLHandler (shortenURLHandler emptySession (shortenRequest collidingURL1)).2
        (shortenRequest collidingURL1)).1 = shortenedAs key :=
  have h1 : (shortenURLHandler emptySession (shortenRequest collidingURL1)).1.status = 200 := by
    rw [first_request_created]; rfl
  have h2 : (shortenURLHandler (shortenURLHandler emptySession (shortenRequest collidingURL1)).2
      (shortenRequest collidingURL1)).1.status = 200 := by
    show (shortenURLHandler sessionAfterFirst (shortenRequest collidingURL1)).1.status = 200
    rw [second_request_found]; rfl
  ⟨h1, h2,
    (shorten_twice_same_key emptySession (shortenRequest collidingURL1)
      (shortenRequest collidingURL1) shortenURLHandler shortenURLHandler
      (List.mem_cons_self _ _) (List.mem_cons_self _ _) rfl rfl rfl h1 h2).imp
      (fun _ h => ⟨h.1, h.2.1⟩)⟩

end UrlShortener

